import Mathlib

/-!
Verification of the pypsi statement-processing core: the hex escape decoder
(`pypsi/plugins/hexcode.py`), the variable substitution engine and the `var`
command (`pypsi/plugins/variable.py`), and the thread-local stream proxy and
invocation threads (`pypsi/pipes.py`).

Python strings are modelled as `List Char` (`PyStr`).  Token `index` fields are
modelled by `PyIdx`, which is either an integer or a character: the source can
store a character in an index slot (the transposed-argument call
`VariableToken(index, c)` in `get_subtokens`), so the field must be dynamic,
as in Python.
-/

namespace Pypsi

/-- A Python string: a list of characters. -/
abbrev PyStr := List Char

/-- A dynamically typed token offset: Python stores either an `int` or (through
the transposed constructor call in `get_subtokens`) a one-character `str` in the
`index`/`prefix` slots of a token. -/
inductive PyIdx where
  | nat (n : Nat)
  | char (c : Char)
deriving DecidableEq, Repr

/-- Advance an integer offset by one (`index += 1`).  On a character offset
Python would raise `TypeError`; that case is unreachable for tokenizer-produced
input, whose indices are integers. -/
def incIdx : PyIdx → PyIdx
  | .nat n => .nat (n + 1)
  | .char c => .char c

/-- Modelled from the spec: `StringToken(index, text, quote)` from
`pypsi.cmdline` (not in src/) — concrete literal text with a source offset and
an optional enclosing-quote marker. -/
structure SToken where
  index : PyIdx
  text : PyStr
  quote : Option Char
deriving DecidableEq, Repr

/-- Models `VariableToken(prefix, index, var = '')` from `pypsi/plugins/variable.py`:
a variable reference being accumulated.  The first constructor argument is
stored in `pfx`, the second in `index` (the source calls it with both argument
orders). -/
structure VToken where
  pfx : PyIdx
  index : PyIdx
  var : PyStr
deriving DecidableEq, Repr

/-- Modelled from the spec: the token variants flowing through tokenize hooks —
string tokens, whitespace tokens (`WhitespaceToken(index)` from
`pypsi.cmdline`, not in src/) and variable-reference subtokens. -/
inductive Tok where
  | str (s : SToken)
  | ws (index : PyIdx)
  | var (v : VToken)
deriving DecidableEq, Repr

/-! ## Hex escape decoder (`pypsi/plugins/hexcode.py`) -/

/-- ASCII whitespace accepted by Python's `int(s, 16)` around the digits and by
`str.split()`. -/
def isPySpace (c : Char) : Bool :=
  c = ' ' || c = '\t' || c = '\n' || c = '\r' || c = '\x0b' || c = '\x0c'

/-- Hexadecimal digit test (`0-9a-fA-F`). -/
def isHexDigitCh (c : Char) : Bool :=
  c.isDigit || ('a' ≤ c && c ≤ 'f') || ('A' ≤ c && c ≤ 'F')

/-- Numeric value of a hexadecimal digit. -/
def hexDigitVal (c : Char) : Nat :=
  if c.isDigit then c.toNat - '0'.toNat
  else if 'a' ≤ c && c ≤ 'f' then c.toNat - 'a'.toNat + 10
  else c.toNat - 'A'.toNat + 10

/-- Strip leading and trailing ASCII whitespace (what `int(s, 16)` tolerates). -/
def trimPy (s : PyStr) : PyStr :=
  ((s.dropWhile isPySpace).reverse.dropWhile isPySpace).reverse

/-- Value of a nonempty string of hexadecimal digits. -/
def hexNatOfDigits (ds : PyStr) : Option Nat :=
  if ds ≠ [] ∧ ds.all isHexDigitCh then
    some (ds.foldl (fun a c => a * 16 + hexDigitVal c) 0)
  else none

/-- Python's `int(s, base=16)` on short ASCII strings: surrounding whitespace is
stripped, one optional sign is allowed, then a nonempty run of hex digits
(underscore separators cannot occur in the two-character inputs used here). -/
def pyIntHex (s : PyStr) : Option Int :=
  match trimPy s with
  | '+' :: ds => (hexNatOfDigits ds).map Int.ofNat
  | '-' :: ds => (hexNatOfDigits ds).map (fun n => -(n : Int))
  | ds => (hexNatOfDigits ds).map Int.ofNat

/-- Python's `chr(n)`: defined for `0 ≤ n < 0x110000`, raises `ValueError`
otherwise.  Values produced by the hexcode plugin are at most `0xff`, where
`Char.ofNat` agrees with `chr` exactly. -/
def pyChr (n : Int) : Option Char :=
  if 0 ≤ n ∧ n < 1114112 then some (Char.ofNat n.toNat) else none

/-- The exception that escapes `HexCodePlugin.on_tokenize`: when `chr` raises
`ValueError`, the handler evaluates `'\\x' + hexcode` with `hexcode` bound to
an `int`, which raises an uncaught `TypeError`. -/
inductive HexExc where
  | typeError
deriving DecidableEq, Repr

/-- Scanner state of `HexCodePlugin.on_tokenize`: the `escape` flag, the
`hexcode` accumulator (`None` or the digits collected so far) and the output
`text`. -/
structure HState where
  escape : Bool
  hexcode : Option PyStr
  text : PyStr
deriving DecidableEq, Repr

/-- One character of the escape-decoding loop in `HexCodePlugin.on_tokenize`.
Mirrors the source: on `int` failure the emitted `hexcode` is *not* reset to
`None`; on `chr` failure the `except` handler itself raises `TypeError`. -/
def hstep (st : HState) (c : Char) : Except HexExc HState :=
  if st.escape then
    if c = 'x' then .ok { st with escape := false, hexcode := some [] }
    else .ok { st with escape := false, text := st.text ++ ['\\', c] }
  else
    match st.hexcode with
    | some h =>
      let h2 := h ++ [c]
      if h2.length = 2 then
        match pyIntHex h2 with
        | some n =>
          match pyChr n with
          | some ch => .ok { st with text := st.text ++ [ch], hexcode := none }
          | none => .error HexExc.typeError
        | none => .ok { st with text := st.text ++ '\\' :: 'x' :: h2, hexcode := some h2 }
      else .ok { st with hexcode := some h2 }
    | none =>
      if c = '\\' then .ok { st with escape := true }
      else .ok { st with text := st.text ++ [c] }

/-- Run the decoding loop over a token's text. -/
def hscan : HState → PyStr → Except HexExc HState
  | st, [] => .ok st
  | st, c :: cs =>
    match hstep st c with
    | .ok st2 => hscan st2 cs
    | .error e => .error e

/-- End-of-text handling in `HexCodePlugin.on_tokenize`: `if hexcode:` (truthy
only for a nonempty string) appends `\x` plus the partial digits, and
`if escape:` appends a trailing backslash. -/
def hfinal (st : HState) : PyStr :=
  let t :=
    match st.hexcode with
    | some h => if h.isEmpty then st.text else st.text ++ '\\' :: 'x' :: h
    | none => st.text
  if st.escape then t ++ ['\\'] else t

/-- Decode one token's text as `HexCodePlugin.on_tokenize` does. -/
def hexDecode (s : PyStr) : Except HexExc PyStr :=
  (hscan ⟨false, none, []⟩ s).map hfinal

/-- Models `HexCodePlugin.on_tokenize` over a token list: string tokens containing a
backslash have their text decoded in place; all other tokens are skipped. -/
def hexOnTokenize : List Tok → Except HexExc (List Tok)
  | [] => .ok []
  | t :: ts =>
    let t2 : Except HexExc Tok :=
      match t with
      | .str s =>
        if '\\' ∈ s.text then (hexDecode s.text).map (fun tx => .str { s with text := tx })
        else .ok t
      | _ => .ok t
    match t2 with
    | .ok u => (hexOnTokenize ts).map (u :: ·)
    | .error e => .error e

/-! ## Variable substitution engine (`pypsi/plugins/variable.py`) -/

/-- Models `VariableToken.VarChars`: the characters a variable name accepts. -/
def VarChars : PyStr :=
  "abcdefghijklmnopqrstuvwxyzABCDEFGHIJKLMNOPQRSTUVWXYZ0123456789_".data

/-- Models `VariableToken.add_char` returns `TokenContinue` exactly on these. -/
def isVarChar (c : Char) : Bool := VarChars.contains c

/-- State of the `get_subtokens` loop: the `escape` flag, the running `index`,
the current string subtoken (`''`/`None` are both modelled as `none`), the
current variable subtoken, and the subtokens yielded so far. -/
structure GState where
  escape : Bool
  index : PyIdx
  subt : Option SToken
  var : Option VToken
  out : List Tok
deriving Repr

/-- Models `subt.text += t`.  In the escape state `subt` is always a `StringToken`
(the `none` case would be an `AttributeError` in Python and is unreachable). -/
def appendSubt : Option SToken → PyStr → Option SToken
  | some s, t => some { s with text := s.text ++ t }
  | none, _ => none

/-- One character of the `get_subtokens` loop.  `p` is the variable prefix
character, `q` the enclosing token's quote.  The adjacent-reference branch
constructs `VariableToken(index, c)` — arguments transposed relative to the
constructor signature `(prefix, index)` — exactly as the source does. -/
def gstep (p : Char) (q : Option Char) (st : GState) (c : Char) : GState :=
  if st.escape then
    { st with
      escape := false
      subt := appendSubt st.subt (if c = p then [c] else ['\\', c])
      index := incIdx st.index }
  else
    match st.var with
    | some v =>
      if isVarChar c then
        { st with var := some { v with var := v.var ++ [c] }, index := incIdx st.index }
      else if c = p then
        { st with
          out := st.out ++ [Tok.var v]
          var := some ⟨st.index, PyIdx.char c, []⟩
          index := incIdx st.index }
      else if c = '\\' then
        { st with
          out := st.out ++ [Tok.var v]
          var := none
          escape := true
          subt := some ⟨st.index, [], q⟩
          index := incIdx st.index }
      else
        { st with
          out := st.out ++ [Tok.var v]
          var := none
          subt := some ⟨st.index, [c], q⟩
          index := incIdx st.index }
    | none =>
      if c = p then
        { st with
          out := st.out ++ (match st.subt with | some s => [Tok.str s] | none => [])
          subt := none
          var := some ⟨PyIdx.char c, st.index, []⟩
          index := incIdx st.index }
      else if c = '\\' then
        { st with
          escape := true
          subt := some (match st.subt with | some s => s | none => ⟨st.index, [], q⟩)
          index := incIdx st.index }
      else
        { st with
          subt := some (match st.subt with
            | some s => { s with text := s.text ++ [c] }
            | none => ⟨st.index, [c], q⟩)
          index := incIdx st.index }

/-- Run the `get_subtokens` loop over a token's text. -/
def gscan (p : Char) (q : Option Char) : GState → PyStr → GState
  | st, [] => st
  | st, c :: cs => gscan p q (gstep p q st c) cs

/-- The trailing `yield` of `get_subtokens`: `if subt: yield subt
elif var: yield var`. -/
def gfinal (st : GState) : List Tok :=
  match st.subt with
  | some s => st.out ++ [Tok.str s]
  | none =>
    match st.var with
    | some v => st.out ++ [Tok.var v]
    | none => st.out

/-- Models `get_subtokens(token, prefix)`: split a string token's text into literal
and variable-reference subtokens. -/
def getSubtokens (t : SToken) (p : Char) : List Tok :=
  gfinal (gscan p t.quote ⟨false, t.index, none, none, []⟩ t.text)

/-- A raised Python 3 `ValueError`: it carries its message text (exposed via
`str(e)` and `e.args`), but has **no** `.message` attribute — that attribute
was removed in Python 3.0, so reading `e.message` raises `AttributeError`. -/
structure PyErr where
  text : PyStr
deriving DecidableEq, Repr

/-- An exception escaping `VariableCommand.run`: the `except ValueError`
handler at variable.py:109 evaluates `e.message` while building the arguments
of `self.error`, and on Python 3 that attribute access raises
`AttributeError`, which nothing catches. -/
inductive PyExc where
  | attributeError
deriving DecidableEq, Repr

/-- Models `ManagedVariable`: a required getter and an optional setter.  The shell
argument of the getter and the setter's effect on the shell are abstracted;
the claims only exercise the setter-less case. -/
structure ManagedVariable where
  getter : Unit → PyStr
  setter : Option Unit

/-- Models `ManagedVariable.set`: call the setter if present, otherwise raise
`ValueError("read-only variable")`. -/
def ManagedVariable.set (m : ManagedVariable) (_value : PyStr) : Except PyErr Unit :=
  match m.setter with
  | some _ => .ok ()
  | none => .error ⟨("read-only variable").data⟩

/-- A namespace value: a plain string, a callable, or a `ManagedVariable`
(the three cases `VariablePlugin.expand` distinguishes). -/
inductive Value where
  | str (s : PyStr)
  | callableF (f : Unit → PyStr)
  | managed (m : ManagedVariable)

/-- Modelled from the spec: the `ScopedNamespace` (pypsi.namespace, not in
src/) as a case-sensitive insertion-ordered mapping from names to values. -/
abbrev NS := List (PyStr × Value)

/-- Association-list lookup (Python `d[k]` / `k in d`). -/
def alookup {κ α : Type} [DecidableEq κ] : List (κ × α) → κ → Option α
  | [], _ => none
  | (k, v) :: rest, key => if k = key then some v else alookup rest key

/-- Association-list update (Python `d[k] = v`): replace in place, else
append — matching dict insertion-order semantics. -/
def aupsert {κ α : Type} [DecidableEq κ] : List (κ × α) → κ → α → List (κ × α)
  | [], k, v => [(k, v)]
  | (k2, v2) :: rest, k, v =>
    if k2 = k then (k, v) :: rest else (k2, v2) :: aupsert rest k v

/-- Association-list deletion (Python `del d[k]`): remove the entry. -/
def aerase {κ α : Type} [DecidableEq κ] : List (κ × α) → κ → List (κ × α)
  | [], _ => []
  | (k2, v2) :: rest, k =>
    if k2 = k then rest else (k2, v2) :: aerase rest k

/-- Models `VariablePlugin.expand`: resolve a variable reference against the
namespace — absent names give the empty string, callables are invoked,
managed variables use their getter, plain values are used as text. -/
def expandVar (ns : NS) (v : VToken) : PyStr :=
  match alookup ns v.var with
  | some (Value.str s) => s
  | some (Value.callableF f) => f ()
  | some (Value.managed m) => m.getter ()
  | none => []

/-- Raw whitespace split: boundaries at every whitespace character, keeping
empty pieces. -/
def pyWordsAux (s : PyStr) : List PyStr :=
  s.foldr
    (fun c acc =>
      if isPySpace c then [] :: acc
      else
        match acc with
        | [] => [[c]]
        | w :: ws => (c :: w) :: ws)
    []

/-- Python's `str.split()` with no argument: split on runs of whitespace,
discarding empty pieces (so leading/trailing and repeated whitespace produce
no tokens). -/
def pyWords (s : PyStr) : List PyStr :=
  (pyWordsAux s).filter (fun w => !w.isEmpty)

/-- Continuation of the word-splitting loop of `VariablePlugin.on_tokenize`:
every part after the first is preceded by a `WhitespaceToken`. -/
def joinTail (i : PyIdx) : List PyStr → List Tok
  | [] => []
  | p :: ps => Tok.ws i :: Tok.str ⟨i, p, none⟩ :: joinTail i ps

/-- The word-splitting loop of `VariablePlugin.on_tokenize`: emit the split
parts as string tokens with a whitespace token before every part but the
first (all carrying the subtoken's index). -/
def joinParts (i : PyIdx) : List PyStr → List Tok
  | [] => []
  | p :: ps => Tok.str ⟨i, p, none⟩ :: joinTail i ps

/-- The per-subtoken body of `VariablePlugin.on_tokenize`: string subtokens
pass through; variable subtokens are expanded — into one quoted string token
if the enclosing token was quoted, else word-split.  (`get_subtokens` never
yields whitespace tokens, so that branch is unreachable.) -/
def processSubt (ns : NS) (q : Option Char) (subt : Tok) : List Tok :=
  match subt with
  | Tok.str s => [Tok.str s]
  | Tok.var v =>
    let e := expandVar ns v
    match q with
    | some qc => [Tok.str ⟨v.index, e, some qc⟩]
    | none => joinParts v.index (pyWords e)
  | Tok.ws i => [Tok.ws i]

/-- Concatenate the images of a token-list function. -/
def catMap (f : Tok → List Tok) : List Tok → List Tok
  | [] => []
  | t :: ts => f t ++ catMap f ts

/-- The per-token body of `VariablePlugin.on_tokenize`: non-string tokens and
string tokens not containing the prefix are appended unchanged; others are
split into subtokens and processed. -/
def processTok (ns : NS) (p : Char) (t : Tok) : List Tok :=
  match t with
  | Tok.str s =>
    if p ∈ s.text then catMap (processSubt ns s.quote) (getSubtokens s p)
    else [t]
  | _ => [t]

/-- Models `VariablePlugin.on_tokenize` over a token list. -/
def varOnTokenize (ns : NS) (p : Char) : List Tok → List Tok
  | [] => []
  | t :: ts => processTok ns p t ++ varOnTokenize ns p ts

/-- Number of string tokens in a token list. -/
def countStrToks (ts : List Tok) : Nat :=
  (ts.filter (fun t => match t with | Tok.str _ => true | _ => false)).length

/-! ## The `var` command (`VariableCommand.run`) -/

/-- Models `Expression`: operand, operator and value of an assignment. -/
structure Expression where
  operand : Option PyStr
  operator : Option PyStr
  value : Option PyStr
deriving Repr

/-- Modelled from the spec: `Expression.parse` (pypsi.cmdline, not in src/)
extracts operand/operator/value from a flat argument list, returning arguments
past the first assignment as `remaining` (at most one assignment per parse). -/
def expParse : List PyStr → List PyStr × Expression
  | [] => ([], ⟨none, none, none⟩)
  | [a] => ([], ⟨some a, none, none⟩)
  | [a, b] => ([], ⟨some a, some b, none⟩)
  | a :: b :: c :: rest => (rest, ⟨some a, some b, some c⟩)

/-- Observable outcome of one `VariableCommand.run` call: the namespace after
the call and the text written to the info/warn/error channels, plus the
return code. -/
structure RunOut where
  vars : NS
  infos : List PyStr
  warns : List PyStr
  errs : List PyStr
  rc : Int

/-- Models `VariableCommand.Usage`. -/
def varUsage : PyStr :=
  ("usage: var name = value\n   or: var -l\n   or: var -d name\nManage local variables.").data

/-- Value rendering in the `-l` listing: callables are invoked, managed
variables use their getter, plain values are shown as-is. -/
def renderValue (v : Value) : PyStr :=
  match v with
  | Value.str s => s
  | Value.callableF f => f ()
  | Value.managed m => m.getter ()

/-- Strict lexicographic comparison of Python strings by code point. -/
def pyStrLt : PyStr → PyStr → Bool
  | [], [] => false
  | [], _ :: _ => true
  | _ :: _, [] => false
  | a :: as, b :: bs => if a = b then pyStrLt as bs else decide (a < b)

/-- Stable insertion used to model `sorted(vars, key=lambda x: x[0])`. -/
def insertByName (x : PyStr × PyStr) : List (PyStr × PyStr) → List (PyStr × PyStr)
  | [] => [x]
  | y :: ys => if pyStrLt x.1 y.1 then x :: y :: ys else y :: insertByName x ys

/-- Sort name/value rows by name. -/
def sortByName : List (PyStr × PyStr) → List (PyStr × PyStr)
  | [] => []
  | x :: xs => insertByName x (sortByName xs)

/-- The `-l` listing: one line per variable, name padded to the longest name
plus four spaces, then the rendered value and a newline. -/
def varListLines (vars : NS) : List PyStr :=
  let col1 := vars.foldl (fun m p2 => max m p2.1.length) 0
  let rows := vars.map (fun p2 => (p2.1, renderValue p2.2))
  (sortByName rows).map
    (fun r => r.1 ++ List.replicate (col1 - r.1.length) ' ' ++ ("    ").data ++ r.2 ++ ['\n'])

/-- Models `VariableCommand.run` under Python 3 semantics.  Usage errors
(`self.usage_error`, from pypsi.base, not in src/) are modelled from the spec
as the message reported locally on the error channel with a non-zero status.
The setter branch of a successful managed assignment leaves the namespace
unchanged (the setter's shell effect is abstracted).  When `ManagedVariable.set`
raises `ValueError`, the handler evaluates `self.error(shell, "error setting
variable ", name, ": ", e.message, '\n')`: argument evaluation reaches
`e.message`, which does not exist on a Python 3 exception, so `AttributeError`
escapes `run` — nothing is written to any channel and no row is returned. -/
def varRun (vars : NS) (args : List PyStr) : Except PyExc RunOut :=
  match args with
  | [] => .ok ⟨vars, [], [], [("missing required argument").data], 1⟩
  | a :: rest =>
    if a = ("-h").data then .ok ⟨vars, [], [varUsage ++ ['\n']], [], 0⟩
    else if a = ("-l").data then
      match rest with
      | [] => .ok ⟨vars, varListLines vars, [], [], 0⟩
      | _ :: _ => .ok ⟨vars, [], [varUsage], [("invalid arguments\n").data], 1⟩
    else if a = ("-d").data then
      match rest with
      | [nm] =>
        .ok ⟨if (alookup vars nm).isSome then aerase vars nm else vars, [], [], [], 0⟩
      | _ => .ok ⟨vars, [], [varUsage], [("invalid arguments\n").data], 1⟩
    else
      match expParse args with
      | (_ :: _, _) => .ok ⟨vars, [], [], [("cannot set multiple variables").data], 1⟩
      | ([], exp) =>
        match exp.operand with
        | none => .ok ⟨vars, [], [], [("missing variable name").data], 1⟩
        | some nm =>
          match exp.operator with
          | none => .ok ⟨vars, [], [], [("missing operator").data], 1⟩
          | some op =>
            if op ≠ ['='] then .ok ⟨vars, [], [], [("invalid operator ").data ++ op], 1⟩
            else
              let value := exp.value.getD []
              match alookup vars nm with
              | some (Value.managed m) =>
                match m.set value with
                | Except.ok _ => .ok ⟨vars, [], [], [], 0⟩
                | Except.error _ => .error PyExc.attributeError
              | _ => .ok ⟨aupsert vars nm (Value.str value), [], [], [], 0⟩

/-! ## Pipes (`pypsi/pipes.py`) -/

/-- Modelled from the spec: a `CommandInvocation`'s stream state — whether each
of stdin/stdout/stderr has been closed (`close_streams` from pypsi.cmdline is
not in src/; the claims need only that `stop` may invoke it and that it may
mutate this state or fail). -/
structure CommandInvocation where
  stdinClosed : Bool
  stdoutClosed : Bool
  stderrClosed : Bool
deriving DecidableEq, Repr

/-- A failure raised by `close_streams` (swallowed by `stop`). -/
inductive StreamExc where
  | closeFailure
deriving DecidableEq, Repr

/-- Models `InvocationThread`: the wrapped invocation, liveness (`is_alive()`), the
nullable return code and the nullable captured-failure record. -/
structure InvocationThread where
  invoke : CommandInvocation
  alive : Bool
  rc : Option Int
  excInfo : Option Unit
deriving DecidableEq, Repr

/-- Models `InvocationThread.stop`: if the thread is alive, call the invocation's
`close_streams` (its behaviour — resulting stream state plus optional raised
exception — is the `close` parameter) and swallow any exception; otherwise do
nothing. -/
def InvocationThread.stop
    (close : CommandInvocation → CommandInvocation × Option StreamExc)
    (t : InvocationThread) : InvocationThread :=
  if t.alive then { t with invoke := (close t.invoke).1 } else t

/-- The `(target, width, isatty)` triple of `ThreadLocalStream`. -/
abbrev Triple (σ : Type) := σ × Option Nat × Option Bool

/-- Models `ThreadLocalStream`: one canonical triple plus a map from thread identity
to a per-thread override triple. -/
structure ThreadLocalStream (σ : Type) where
  target : Triple σ
  proxies : List (Nat × Triple σ)
deriving Repr

/-- Models `ThreadLocalStream._get_target` as seen by the thread with identity
`ident`: its override if installed, else the canonical triple. -/
def ThreadLocalStream.getTargetFor {σ : Type} (s : ThreadLocalStream σ) (ident : Nat) :
    Triple σ :=
  (alookup s.proxies ident).getD s.target

/-- Models `ThreadLocalStream._proxy`, called on the thread with identity `cur`:
install that thread's override triple. -/
def ThreadLocalStream.proxy {σ : Type} (s : ThreadLocalStream σ) (cur : Nat)
    (t : Triple σ) : ThreadLocalStream σ :=
  { s with proxies := aupsert s.proxies cur t }

/-- Models `ident = ident or threading.current_thread().ident`: a `None` argument —
and, through Python truthiness, a zero identity — resolves to the calling
thread. -/
def resolveIdent (identArg : Option Nat) (cur : Nat) : Nat :=
  match identArg with
  | none => cur
  | some 0 => cur
  | some n => n

/-- Models `ThreadLocalStream._unproxy`, called on the thread with identity `cur`:
delete the resolved identity's override if present, else do nothing. -/
def ThreadLocalStream.unproxy {σ : Type} (s : ThreadLocalStream σ)
    (identArg : Option Nat) (cur : Nat) : ThreadLocalStream σ :=
  let ident := resolveIdent identArg cur
  if (alookup s.proxies ident).isSome then { s with proxies := aerase s.proxies ident }
  else s

/-! ## Concrete instances used by witnesses -/

/-- A single-variable namespace binding `x` to a plain value. -/
def nsOf (v : PyStr) : NS := [(['x'], Value.str v)]

/-- A namespace binding `a` and `b` to plain values (`u` is unset). -/
def nsC4 (w v : PyStr) : NS := [(['a'], Value.str w), (['b'], Value.str v)]

/-- A concrete getter for a read-only managed variable. -/
def roGetter : Unit → PyStr := fun _ => ("x").data

/-- A namespace whose `ro` entry is a setter-less `ManagedVariable`. -/
def roVars : NS := [(("ro").data, Value.managed ⟨roGetter, none⟩)]

/-- A concrete invocation with open streams. -/
def invokeOpen : CommandInvocation := ⟨false, false, false⟩

/-- A completed thread (`is_alive()` false, return code assigned). -/
def deadThread : InvocationThread := ⟨invokeOpen, false, some 0, none⟩

/-- A live thread blocked in its invocation. -/
def liveThread : InvocationThread := ⟨invokeOpen, true, none, none⟩

/-- A `close_streams` behaviour that closes all three streams and succeeds. -/
def closeOk : CommandInvocation → CommandInvocation × Option StreamExc :=
  fun _ => (⟨true, true, true⟩, none)

/-- A `close_streams` behaviour that closes all three streams but raises. -/
def closeFail : CommandInvocation → CommandInvocation × Option StreamExc :=
  fun _ => (⟨true, true, true⟩, some StreamExc.closeFailure)

/-- A concrete stream with one override installed for thread 1. -/
def stream0 : ThreadLocalStream Nat := ⟨(7, none, none), [(1, (8, some 80, some true))]⟩

/-- A concrete override triple. -/
def trip0 : Triple Nat := (9, none, some false)

end Pypsi

namespace Pypsi

/-! ## Helper lemmas -/

theorem hscan_append (xs ys : PyStr) : ∀ st, hscan st (xs ++ ys) =
    match hscan st xs with
    | .ok st2 => hscan st2 ys
    | .error e => .error e := by
  induction xs with
  | nil => intro st; simp [hscan]
  | cons c cs ih =>
    intro st
    simp only [List.cons_append, hscan]
    cases hstep st c with
    | ok st2 => exact ih st2
    | error e => rfl

theorem hscan_plain (pre : PyStr) (hpre : ∀ c ∈ pre, c ≠ '\\') :
    ∀ acc, hscan ⟨false, none, acc⟩ pre = Except.ok ⟨false, none, acc ++ pre⟩ := by
  induction pre with
  | nil => intro acc; simp [hscan]
  | cons c cs ih =>
    intro acc
    have hc : c ≠ '\\' := hpre c (List.mem_cons_self _ _)
    have hcs : ∀ x ∈ cs, x ≠ '\\' := fun x hx => hpre x (List.mem_cons_of_mem _ hx)
    simp only [hscan, hstep, Bool.false_eq_true, if_neg hc, if_false]
    rw [ih hcs (acc ++ [c])]
    simp

theorem gscan_plain (p : Char) (q : Option Char) :
    ∀ (n : PyStr), (∀ c ∈ n, c ≠ p ∧ c ≠ '\\') →
    ∀ (i : PyIdx) (s : SToken) (o : List Tok),
      ∃ j, gscan p q ⟨false, i, some s, none, o⟩ n
        = ⟨false, j, some { s with text := s.text ++ n }, none, o⟩ := by
  intro n
  induction n with
  | nil => intro _ i s o; exact ⟨i, by simp [gscan]⟩
  | cons c cs ih =>
    intro hn i s o
    have hc := hn c (List.mem_cons_self _ _)
    have hcs : ∀ x ∈ cs, x ≠ p ∧ x ≠ '\\' := fun x hx => hn x (List.mem_cons_of_mem _ hx)
    obtain ⟨j, hj⟩ := ih hcs (incIdx i) { s with text := s.text ++ [c] } o
    refine ⟨j, ?_⟩
    simp only [gscan, gstep, Bool.false_eq_true, if_neg hc.1, if_neg hc.2, if_false]
    rw [hj]
    simp

theorem countStrToks_joinTail (i : PyIdx) : ∀ ps, countStrToks (joinTail i ps) = ps.length := by
  intro ps
  induction ps with
  | nil => rfl
  | cons p2 ps ih => simp [joinTail, countStrToks, List.filter] at ih ⊢; omega

theorem countStrToks_joinParts (i : PyIdx) (ps : List PyStr) :
    countStrToks (joinParts i ps) = ps.length := by
  cases ps with
  | nil => rfl
  | cons p2 ps =>
    have := countStrToks_joinTail i ps
    simp [joinParts, countStrToks, List.filter] at this ⊢
    omega

theorem alookup_aupsert_ne {κ α : Type} [DecidableEq κ] (k k2 : κ) (v : α) (h : k2 ≠ k) :
    ∀ xs : List (κ × α), alookup (aupsert xs k v) k2 = alookup xs k2 := by
  intro xs
  induction xs with
  | nil => simp [aupsert, alookup, Ne.symm h]
  | cons p2 rest ih =>
    obtain ⟨k3, v3⟩ := p2
    by_cases hk : k3 = k
    · subst hk
      simp [aupsert, alookup, Ne.symm h]
    · simp [aupsert, alookup, hk, ih]

theorem alookup_aerase_ne {κ α : Type} [DecidableEq κ] (k k2 : κ) (h : k2 ≠ k) :
    ∀ xs : List (κ × α), alookup (aerase xs k) k2 = alookup xs k2 := by
  intro xs
  induction xs with
  | nil => simp [aerase]
  | cons p2 rest ih =>
    obtain ⟨k3, v3⟩ := p2
    by_cases hk : k3 = k
    · subst hk
      simp [aerase, alookup, Ne.symm h]
    · simp [aerase, alookup, hk, ih]

end Pypsi

namespace Pypsi

/-! ## Claim theorems -/

/-- C1: evaluation of `HexCodePlugin.on_tokenize`'s decoder at the token text
`a\xzzb`.  The claim says an invalid `\xHH` is emitted verbatim once and
scanning returns to normal (expected `a\xzzb`); the code instead leaves the
`hexcode` accumulator set after the failed parse, so the rest of the token is
swallowed into it and re-emitted with a second `\x` prefix, giving
`a\xzz\xzzb`. -/
theorem c1_invalid_hex_swallows_rest :
    hexDecode ("a\\xzzb").data = Except.ok ("a\\xzz\\xzzb").data := by rfl

/-- C5: evaluation of `get_subtokens` at `$a$b` (token index 0).  The second
variable token is built by the transposed constructor call
`VariableToken(index, c)`: its `index` is the character `'$'` rather than an
integer source offset, and its `prefix` is the integer 2 — refuting the claim
that every produced token carries a non-decreasing integer `index`. -/
theorem c5_adjacent_reference_swapped_index :
    getSubtokens ⟨PyIdx.nat 0, ['$', 'a', '$', 'b'], none⟩ '$'
      = [Tok.var ⟨PyIdx.char '$', PyIdx.nat 0, ['a']⟩,
         Tok.var ⟨PyIdx.nat 2, PyIdx.char '$', ['b']⟩] := by decide

/-- C6 counterexample: a token whose text ends immediately after `\x`
(zero digits collected).  The claim says `\x` is appended; the code's
`if hexcode:` is falsy on the empty accumulator, so the `\x` is dropped and
the decoder returns the empty string. -/
theorem c6_zero_digit_counterexample :
    hexDecode ['\\', 'x'] ≠ Except.ok ['\\', 'x']
    ∧ hexDecode ['\\', 'x'] = Except.ok [] := by
  refine ⟨?_, rfl⟩
  rw [show hexDecode ['\\', 'x'] = Except.ok [] from rfl]
  simp

/-- C6 (amended): for text ending while the decoder collects hex digits, one
collected digit is re-emitted as `\x` plus that digit, but in the zero-digit
case (text ending right after `\x`) nothing is appended — the `\x` is dropped;
text ending in the escape state gets a trailing backslash appended. -/
theorem c6_end_of_text_states (pre : PyStr) (hpre : ∀ c ∈ pre, c ≠ '\\') :
    (∀ d : Char, hexDecode (pre ++ ['\\', 'x', d]) = Except.ok (pre ++ ['\\', 'x', d]))
    ∧ hexDecode (pre ++ ['\\', 'x']) = Except.ok pre
    ∧ hexDecode (pre ++ ['\\']) = Except.ok (pre ++ ['\\']) := by
  have hplain := hscan_plain pre hpre []
  simp only [List.nil_append] at hplain
  refine ⟨fun d => ?_, ?_, ?_⟩
  · unfold hexDecode
    rw [hscan_append, hplain]
    simp [hscan, hstep, hfinal, Except.map]
  · unfold hexDecode
    rw [hscan_append, hplain]
    simp [hscan, hstep, hfinal, Except.map]
  · unfold hexDecode
    rw [hscan_append, hplain]
    simp [hscan, hstep, hfinal, Except.map]

/-- C6 witness: the amended end-of-text behaviour at the concrete texts
`a\xq`, `a\x` and `a\`. -/
theorem c6_end_of_text_states_witness :
    hexDecode ['a', '\\', 'x', 'q'] = Except.ok ['a', '\\', 'x', 'q']
    ∧ hexDecode ['a', '\\', 'x'] = Except.ok ['a']
    ∧ hexDecode ['a', '\\'] = Except.ok ['a', '\\'] :=
  ⟨(c6_end_of_text_states ['a'] (by decide)).1 'q',
   (c6_end_of_text_states ['a'] (by decide)).2.1,
   (c6_end_of_text_states ['a'] (by decide)).2.2⟩

/-- C9: evaluation of `HexCodePlugin.on_tokenize` at a one-token list whose
text is `\x-f`.  The claim says on_tokenize always returns the same token
list; here `int('-f', 16)` succeeds with -15, `chr(-15)` raises `ValueError`,
and the `except` handler evaluates `'\x' + hexcode` with `hexcode` bound to an
`int`, raising an uncaught `TypeError` — so no list is returned at all. -/
theorem c9_hexcode_typeerror_escape :
    hexOnTokenize [Tok.str ⟨PyIdx.nat 0, ['\\', 'x', '-', 'f'], none⟩]
      = Except.error HexExc.typeError := by rfl

end Pypsi

namespace Pypsi

/-- C3 counterexample: the unquoted expansion of a value with two embedded
(adjacent) spaces, `a  b`.  The claim predicts N+1 = 3 string tokens; Python's
`split()` collapses the run, so the code produces 2. -/
theorem c3_word_split_counterexample :
    countStrToks (varOnTokenize (nsOf ['a', ' ', ' ', 'b']) '$'
        [Tok.str ⟨PyIdx.nat 0, ['$', 'x'], none⟩]) = 2
    ∧ (['a', ' ', ' ', 'b'].countP (fun c => c == ' ')) = 2
    ∧ (2 : Nat) ≠ 2 + 1 := by decide

/-- C3 (amended): a variable reference inside a quoted token expands to exactly
one quoted string token with the full value (internal whitespace preserved, no
word-splitting); the same reference unquoted expands to the value's maximal
whitespace-delimited words as string tokens alternating with whitespace tokens
(Python `split()`: runs of whitespace collapse and leading/trailing whitespace
produces no token), so the number of string tokens equals the number of words —
N+1 for N single interior spaces. -/
theorem c3_quoted_vs_unquoted_reassembly (v : PyStr) (q : Char) (i : PyIdx) :
    varOnTokenize (nsOf v) '$' [Tok.str ⟨i, ['$', 'x'], some q⟩]
      = [Tok.str ⟨i, v, some q⟩]
    ∧ varOnTokenize (nsOf v) '$' [Tok.str ⟨i, ['$', 'x'], none⟩]
      = joinParts i (pyWords v)
    ∧ countStrToks (varOnTokenize (nsOf v) '$' [Tok.str ⟨i, ['$', 'x'], none⟩])
      = (pyWords v).length := by
  have h2 : varOnTokenize (nsOf v) '$' [Tok.str ⟨i, ['$', 'x'], none⟩]
      = (joinParts i (pyWords v) ++ []) ++ [] := rfl
  refine ⟨rfl, ?_, ?_⟩
  · rw [h2, List.append_nil, List.append_nil]
  · rw [h2, List.append_nil, List.append_nil, countStrToks_joinParts]

/-- C4 counterexample: two adjacent expansions `$a$b` with `a = foo`,
`b = bar`.  The claim says the pair becomes a single concatenated token
(`foobar`); the code emits one string token per expansion — two tokens
(the second carrying the transposed `'$'` index), with no separator. -/
theorem c4_two_token_counterexample :
    varOnTokenize (nsC4 ['f', 'o', 'o'] ['b', 'a', 'r']) '$'
        [Tok.str ⟨PyIdx.nat 0, ['$', 'a', '$', 'b'], none⟩]
      = [Tok.str ⟨PyIdx.nat 0, ['f', 'o', 'o'], none⟩,
         Tok.str ⟨PyIdx.char '$', ['b', 'a', 'r'], none⟩]
    ∧ (varOnTokenize (nsC4 ['f', 'o', 'o'] ['b', 'a', 'r']) '$'
        [Tok.str ⟨PyIdx.nat 0, ['$', 'a', '$', 'b'], none⟩]).length ≠ 1 := by decide

/-- C4 (amended): adjacent expansions with nothing between them are emitted
back-to-back with no separator token inserted; when the first expansion is
empty (`$u$b` with `u` unset and `b` one-word) the result is literally a single
token, while two nonempty one-word expansions give two consecutive string
tokens with no whitespace between them (one argument after adjacent-token
joining); the variant with an intervening whitespace token yields two string
tokens separated by whitespace — two arguments. -/
theorem c4_adjacent_expansions (w v : PyStr) (k i j l : Nat)
    (hw : pyWords w = [w]) (hv : pyWords v = [v]) :
    varOnTokenize (nsC4 w v) '$' [Tok.str ⟨PyIdx.nat k, ['$', 'u', '$', 'b'], none⟩]
      = [Tok.str ⟨PyIdx.char '$', v, none⟩]
    ∧ varOnTokenize (nsC4 w v) '$' [Tok.str ⟨PyIdx.nat k, ['$', 'a', '$', 'b'], none⟩]
      = [Tok.str ⟨PyIdx.nat k, w, none⟩, Tok.str ⟨PyIdx.char '$', v, none⟩]
    ∧ varOnTokenize (nsC4 w v) '$'
        [Tok.str ⟨PyIdx.nat i, ['$', 'a'], none⟩, Tok.ws (PyIdx.nat j),
         Tok.str ⟨PyIdx.nat l, ['$', 'b'], none⟩]
      = [Tok.str ⟨PyIdx.nat i, w, none⟩, Tok.ws (PyIdx.nat j),
         Tok.str ⟨PyIdx.nat l, v, none⟩] := by
  refine ⟨?_, ?_, ?_⟩
  · show ([] ++ (joinParts (PyIdx.char '$') (pyWords v) ++ [])) ++ [] = _
    rw [hv]
    rfl
  · show (joinParts (PyIdx.nat k) (pyWords w) ++ (joinParts (PyIdx.char '$') (pyWords v) ++ [])) ++ [] = _
    rw [hw, hv]
    rfl
  · show (joinParts (PyIdx.nat i) (pyWords w) ++ []) ++ ([Tok.ws (PyIdx.nat j)] ++ ((joinParts (PyIdx.nat l) (pyWords v) ++ []) ++ [])) = _
    rw [hw, hv]
    rfl

/-- C4 witness: the amended adjacency behaviour at `w = Hi`, `v = World`. -/
theorem c4_adjacent_expansions_witness :
    pyWords (("Hi").data) = [("Hi").data]
    ∧ pyWords (("World").data) = [("World").data]
    ∧ varOnTokenize (nsC4 (("Hi").data) (("World").data)) '$'
        [Tok.str ⟨PyIdx.nat 0, ['$', 'u', '$', 'b'], none⟩]
      = [Tok.str ⟨PyIdx.char '$', ("World").data, none⟩]
    ∧ varOnTokenize (nsC4 (("Hi").data) (("World").data)) '$'
        [Tok.str ⟨PyIdx.nat 0, ['$', 'a'], none⟩, Tok.ws (PyIdx.nat 2),
         Tok.str ⟨PyIdx.nat 3, ['$', 'b'], none⟩]
      = [Tok.str ⟨PyIdx.nat 0, ("Hi").data, none⟩, Tok.ws (PyIdx.nat 2),
         Tok.str ⟨PyIdx.nat 3, ("World").data, none⟩] :=
  ⟨by decide, by decide,
   (c4_adjacent_expansions (("Hi").data) (("World").data) 0 0 2 3 (by decide) (by decide)).1,
   (c4_adjacent_expansions (("Hi").data) (("World").data) 0 0 2 3 (by decide) (by decide)).2.2⟩

/-- C7: a backslash immediately before the prefix character suppresses its
special meaning — `\$name` (no prefix, backslash or further specials in
`name`) becomes the literal string token `$name`, with no variable resolved
(the output does not depend on the namespace); and in the scanner a backslash
before any non-prefix character preserves both characters literally. -/
theorem c7_backslash_suppresses_reference (ns : NS) (n : PyStr) (i : PyIdx)
    (q : Option Char) (hn : ∀ c ∈ n, c ≠ '$' ∧ c ≠ '\\') :
    varOnTokenize ns '$' [Tok.str ⟨i, '\\' :: '$' :: n, q⟩]
      = [Tok.str ⟨i, '$' :: n, q⟩]
    ∧ (∀ c : Char, c ≠ '$' →
        getSubtokens ⟨i, '\\' :: c :: n, q⟩ '$' = [Tok.str ⟨i, '\\' :: c :: n, q⟩]) := by
  have hsub : getSubtokens ⟨i, '\\' :: '$' :: n, q⟩ '$' = [Tok.str ⟨i, '$' :: n, q⟩] := by
    unfold getSubtokens
    simp only [gscan]
    rw [show gstep '$' q ⟨false, i, none, none, []⟩ '\\'
          = ⟨true, incIdx i, some ⟨i, [], q⟩, none, []⟩ from rfl,
        show gstep '$' q ⟨true, incIdx i, some ⟨i, [], q⟩, none, []⟩ '$'
          = ⟨false, incIdx (incIdx i), some ⟨i, ['$'], q⟩, none, []⟩ from rfl]
    obtain ⟨j, hj⟩ := gscan_plain '$' q n hn (incIdx (incIdx i)) ⟨i, ['$'], q⟩ []
    rw [hj]
    rfl
  constructor
  · have hm : '$' ∈ ('\\' :: '$' :: n) := by simp
    show processTok ns '$' (Tok.str ⟨i, '\\' :: '$' :: n, q⟩) ++ [] = _
    rw [List.append_nil]
    simp only [processTok, if_pos hm, hsub]
    rfl
  · intro c hc
    unfold getSubtokens
    simp only [gscan]
    rw [show gstep '$' q ⟨false, i, none, none, []⟩ '\\'
          = ⟨true, incIdx i, some ⟨i, [], q⟩, none, []⟩ from rfl]
    have hstep2 : gstep '$' q ⟨true, incIdx i, some ⟨i, [], q⟩, none, []⟩ c
        = ⟨false, incIdx (incIdx i), some ⟨i, ['\\', c], q⟩, none, []⟩ := by
      simp [gstep, appendSubt, hc]
    rw [hstep2]
    obtain ⟨j, hj⟩ := gscan_plain '$' q n hn (incIdx (incIdx i)) ⟨i, ['\\', c], q⟩ []
    rw [hj]
    rfl

/-- C7 witness: the literal behaviour at `\$name` and `\qname` with an empty
namespace. -/
theorem c7_backslash_suppresses_reference_witness :
    varOnTokenize [] '$' [Tok.str ⟨PyIdx.nat 0, ['\\', '$', 'n', 'a', 'm', 'e'], none⟩]
      = [Tok.str ⟨PyIdx.nat 0, ['$', 'n', 'a', 'm', 'e'], none⟩]
    ∧ getSubtokens ⟨PyIdx.nat 0, ['\\', 'q', 'n', 'a', 'm', 'e'], none⟩ '$'
      = [Tok.str ⟨PyIdx.nat 0, ['\\', 'q', 'n', 'a', 'm', 'e'], none⟩] :=
  ⟨(c7_backslash_suppresses_reference [] ['n', 'a', 'm', 'e'] (PyIdx.nat 0) none
      (by decide)).1,
   (c7_backslash_suppresses_reference [] ['n', 'a', 'm', 'e'] (PyIdx.nat 0) none
      (by decide)).2 'q' (by decide)⟩

end Pypsi

namespace Pypsi

/-- C2: assigning through `VariableCommand.run` (`[name, =, value]`, with
`name` none of the command's own flags) to a name bound to a setter-less
`ManagedVariable` does NOT report the read-only error locally: the
`except ValueError` handler reads `e.message`, which does not exist on a
Python 3 exception, so an `AttributeError` escapes `run` — nothing is written
to the error channel and `run` does not return (the `ValueError` raised by
`ManagedVariable.set` never mutated the namespace, so the stored state is
untouched, but the claim's reported-locally-and-returns-normally part is
false). -/
theorem c2_readonly_assignment_raises (vars : NS) (nm value : PyStr)
    (g : Unit → PyStr)
    (h1 : nm ≠ ("-h").data) (h2 : nm ≠ ("-l").data) (h3 : nm ≠ ("-d").data)
    (h4 : alookup vars nm = some (Value.managed ⟨g, none⟩)) :
    varRun vars [nm, ['='], value] = Except.error PyExc.attributeError := by
  simp only [varRun, expParse, if_neg h1, if_neg h2, if_neg h3, h4,
    ManagedVariable.set, Option.getD]
  simp

/-- C2 witness: the escaping `AttributeError` on the concrete namespace
`roVars` (`ro` bound to a setter-less managed variable). -/
theorem c2_readonly_assignment_raises_witness :
    alookup roVars (("ro").data) = some (Value.managed ⟨roGetter, none⟩)
    ∧ varRun roVars [("ro").data, ['='], ("1").data]
      = Except.error PyExc.attributeError :=
  ⟨rfl, c2_readonly_assignment_raises roVars (("ro").data) (("1").data) roGetter
    (by decide) (by decide) (by decide) rfl⟩

/-- C8: `InvocationThread.stop` is a no-op on a thread that is not alive
(completed or never started); on a live thread it only replaces the
invocation's stream state with whatever `close_streams` leaves (return code
and failure record untouched); and its result never depends on the exception
component of `close_streams` — a close failure is swallowed, never propagated. -/
theorem c8_stop_only_when_alive_and_swallows
    (close close2 : CommandInvocation → CommandInvocation × Option StreamExc)
    (t : InvocationThread) :
    (t.alive = false → InvocationThread.stop close t = t)
    ∧ (t.alive = true →
        InvocationThread.stop close t = { t with invoke := (close t.invoke).1 })
    ∧ ((∀ i2, (close i2).1 = (close2 i2).1) →
        InvocationThread.stop close t = InvocationThread.stop close2 t) := by
  refine ⟨fun h => ?_, fun h => ?_, fun h => ?_⟩
  · simp [InvocationThread.stop, h]
  · simp [InvocationThread.stop, h]
  · simp [InvocationThread.stop, h t.invoke]

/-- C8 witness: `stop` on the completed `deadThread` is a no-op, on the
`liveThread` it closes the streams, and a failing close gives the same result
as a succeeding one. -/
theorem c8_stop_only_when_alive_and_swallows_witness :
    InvocationThread.stop closeOk deadThread = deadThread
    ∧ InvocationThread.stop closeOk liveThread
      = { liveThread with invoke := (closeOk liveThread.invoke).1 }
    ∧ InvocationThread.stop closeFail deadThread
      = InvocationThread.stop closeOk deadThread
    ∧ InvocationThread.stop closeFail liveThread
      = InvocationThread.stop closeOk liveThread :=
  ⟨(c8_stop_only_when_alive_and_swallows closeOk closeOk deadThread).1 rfl,
   (c8_stop_only_when_alive_and_swallows closeOk closeOk liveThread).2.1 rfl,
   (c8_stop_only_when_alive_and_swallows closeFail closeOk deadThread).2.2
     (fun _ => rfl),
   (c8_stop_only_when_alive_and_swallows closeFail closeOk liveThread).2.2
     (fun _ => rfl)⟩

/-- C10: `_proxy` on the calling thread and `_unproxy` on any resolved
identity leave the canonical target triple unchanged and leave the effective
`_get_target` triple of every other thread identity unchanged; `_unproxy` on
an identity with no installed override is a no-op on the whole stream state. -/
theorem c10_proxy_per_thread_isolation (σ : Type) (s : ThreadLocalStream σ)
    (cur other : Nat) (tr : Triple σ) (identArg : Option Nat) :
    ((s.proxy cur tr).target = s.target)
    ∧ (other ≠ cur → (s.proxy cur tr).getTargetFor other = s.getTargetFor other)
    ∧ ((s.unproxy identArg cur).target = s.target)
    ∧ (other ≠ resolveIdent identArg cur →
        (s.unproxy identArg cur).getTargetFor other = s.getTargetFor other)
    ∧ (alookup s.proxies (resolveIdent identArg cur) = none →
        s.unproxy identArg cur = s) := by
  refine ⟨rfl, fun h => ?_, ?_, fun h => ?_, fun h => ?_⟩
  · simp [ThreadLocalStream.proxy, ThreadLocalStream.getTargetFor,
      alookup_aupsert_ne _ _ _ h]
  · by_cases hs : (alookup s.proxies (resolveIdent identArg cur)).isSome
    · simp [ThreadLocalStream.unproxy, hs]
    · simp [ThreadLocalStream.unproxy, hs]
  · by_cases hs : (alookup s.proxies (resolveIdent identArg cur)).isSome
    · simp [ThreadLocalStream.unproxy, hs, ThreadLocalStream.getTargetFor,
        alookup_aerase_ne _ _ h]
    · simp [ThreadLocalStream.unproxy, hs]
  · simp [ThreadLocalStream.unproxy, h]

/-- C10 witness: isolation at the concrete stream `stream0` (override
installed for thread 1), installing for thread 1, observing from thread 2,
and removing the absent override of thread 3. -/
theorem c10_proxy_per_thread_isolation_witness :
    ((stream0.proxy 1 trip0).target = stream0.target)
    ∧ ((stream0.proxy 1 trip0).getTargetFor 2 = stream0.getTargetFor 2)
    ∧ ((stream0.unproxy (some 3) 1).target = stream0.target)
    ∧ ((stream0.unproxy (some 3) 1).getTargetFor 2 = stream0.getTargetFor 2)
    ∧ (stream0.unproxy (some 3) 1 = stream0) :=
  ⟨(c10_proxy_per_thread_isolation Nat stream0 1 2 trip0 (some 3)).1,
   (c10_proxy_per_thread_isolation Nat stream0 1 2 trip0 (some 3)).2.1 (by decide),
   (c10_proxy_per_thread_isolation Nat stream0 1 2 trip0 (some 3)).2.2.1,
   (c10_proxy_per_thread_isolation Nat stream0 1 2 trip0 (some 3)).2.2.2.1 (by decide),
   (c10_proxy_per_thread_isolation Nat stream0 1 2 trip0 (some 3)).2.2.2.2 rfl⟩

end Pypsi
